import Mathlib

/-!
Shallow embedding of the `ti-appium` helper layer (`src/appium.js`:
the `Appium_Helper` and `Device_Helper` classes together with their
private helpers `getAppium`, `getAndroidPID` and `checkBooted`).

Shell commands, the process table and the external `ioslib` library are
modelled as explicit inputs; promise resolution/rejection is modelled with
`Except`; the JS `undefined` result is modelled with `Option`.
-/

namespace TiAppium

/-- Tests whether `hay` starts with `needle`; head case of JS substring
matching over a character list. -/
def listStarts : List Char → List Char → Bool
  | [], _ => true
  | _ :: _, [] => false
  | a :: as, b :: bs => a == b && listStarts as bs

/-- Tests whether `needle` is a contiguous sublist of `hay`. -/
def listSub (needle : List Char) : List Char → Bool
  | [] => needle.isEmpty
  | c :: rest => listStarts needle (c :: rest) || listSub needle rest

/-- Models the JS membership tests `s.includes(sub)` and
`s.indexOf(sub) > -1`. -/
def strContains (s sub : String) : Bool :=
  listSub sub.data s.data

/-! Model of `checkBooted` (the private Device_Helper poll loop).

The JS loop shells out to `adb ... getprop init.svc.bootanim` every 3
seconds (after a 10 second delay).  Each shell invocation yields a
`(error, stdout, stderr)` triple; we model the outcome of one invocation as an
`Attempt` and the whole run as consuming a list of attempts. -/

/-- Observable outcome of one boot-poll shell invocation: the
`(error, stdout, stderr)` arguments. -/
structure Attempt where
  stdout : String
  stderr : String
  error : Option String
  deriving Repr, DecidableEq

/-- Final state of the `checkBooted` promise. -/
inductive BootResult where
  | resolved : BootResult
  | rejected : String → BootResult
  deriving Repr, DecidableEq

/-- The timeout rejection message of `checkBooted`
(the JS template literal, whose apostrophe is written here as an escape). -/
def timeoutMsg : String :=
  "Emulator didn\x27t boot in 20 sequences, assuming an issue has occured"

/-- One iteration of the `checkBooted` interval callback, given the count
of polls made before this one.  Mirrors the JS callback line by line:
increment `count`; if stdout contains `"stopped"` resolve; else if
`count >= 20` reject with the timeout message; else if the command
reported an error reject with it; otherwise keep polling (`none`). -/
def pollStep (count : Nat) (a : Attempt) : Option BootResult :=
  let count := count + 1
  if strContains a.stdout "stopped" then
    some .resolved
  else if count ≥ 20 then
    some (.rejected timeoutMsg)
  else
    match a.error with
    | some e => some (.rejected e)
    | none => none

/-- Runs the interval of `checkBooted` over a list of shell outcomes, starting
from a given poll count.  Returns the settled result together with the
total number of polls issued, or `none` if the supplied outcomes ran out
before the promise settled. -/
def checkBootedRun (count : Nat) : List Attempt → Option (BootResult × Nat)
  | [] => none
  | a :: rest =>
    match pollStep count a with
    | some r => some (r, count + 1)
    | none => checkBootedRun (count + 1) rest

/-- Entry point of `checkBooted`: the counter starts at `0`. -/
def checkBooted (attempts : List Attempt) : Option (BootResult × Nat) :=
  checkBootedRun 0 attempts

/-- A poll outcome that keeps the loop running: stdout without
`"stopped"` and no command error. -/
def quietAttempt (a : Attempt) : Prop :=
  strContains a.stdout "stopped" = false ∧ a.error = none

lemma pollStep_eq_none {count : Nat} {a : Attempt}
    (hstop : strContains a.stdout "stopped" = false)
    (hcount : count + 1 < 20) (herr : a.error = none) :
    pollStep count a = none := by
  simp [pollStep, hstop, herr, Nat.not_le.mpr hcount]

lemma pollStep_none_lt {count : Nat} {a : Attempt}
    (h : pollStep count a = none) : count + 1 < 20 := by
  by_contra hc
  simp only [pollStep] at h
  split at h
  · exact Option.noConfusion h
  · rw [if_pos (Nat.not_lt.mp hc)] at h
    exact Option.noConfusion h

lemma checkBootedRun_timeout :
    ∀ (l : List Attempt) (c : Nat), (∀ a ∈ l, quietAttempt a) →
      c < 20 → 20 ≤ c + l.length →
      checkBootedRun c l = some (.rejected timeoutMsg, 20)
  | [], c, _, hc, hlen => by
      simp at hlen
      omega
  | a :: rest, c, hq, hc, hlen => by
      obtain ⟨hstop, herr⟩ := hq a (List.mem_cons_self a rest)
      by_cases h20 : c + 1 ≥ 20
      · have hc20 : c + 1 = 20 := by omega
        simp [checkBootedRun, pollStep, hstop, if_pos h20, hc20]
      · have hlt : c + 1 < 20 := Nat.lt_of_not_le h20
        have hnone := pollStep_eq_none hstop hlt herr
        rw [checkBootedRun, hnone]
        exact checkBootedRun_timeout rest (c + 1)
          (fun b hb => hq b (List.mem_cons_of_mem a hb)) hlt
          (by simp at hlen ⊢; omega)

lemma checkBootedRun_stopped :
    ∀ (pre : List Attempt) (a : Attempt) (rest : List Attempt) (c : Nat),
      (∀ b ∈ pre, quietAttempt b) → c + pre.length ≤ 19 →
      strContains a.stdout "stopped" = true →
      checkBootedRun c (pre ++ a :: rest) =
        some (.resolved, c + pre.length + 1)
  | [], a, rest, c, _, _, hstop => by
      simp [checkBootedRun, pollStep, hstop]
  | b :: pre, a, rest, c, hq, hlen, hstop => by
      obtain ⟨hbs, hbe⟩ := hq b (List.mem_cons_self b pre)
      have hlt : c + 1 < 20 := by simp at hlen; omega
      have hnone := pollStep_eq_none hbs hlt hbe
      rw [List.cons_append, checkBootedRun, hnone]
      have := checkBootedRun_stopped pre a rest (c + 1)
        (fun x hx => hq x (List.mem_cons_of_mem b hx))
        (by simp at hlen ⊢; omega) hstop
      rw [this]
      simp
      omega

lemma checkBootedRun_le :
    ∀ (l : List Attempt) (c : Nat) (r : BootResult) (n : Nat),
      c < 20 → checkBootedRun c l = some (r, n) → n ≤ 20
  | [], _, _, _, _, h => Option.noConfusion h
  | a :: rest, c, r, n, hc, h => by
      rw [checkBootedRun] at h
      cases hp : pollStep c a with
      | some b =>
          rw [hp] at h
          have : n = c + 1 := by
            injection h with h1
            injection h1 with _ h2
            exact h2.symm
          omega
      | none =>
          rw [hp] at h
          exact checkBootedRun_le rest (c + 1) r n (pollStep_none_lt hp) h

lemma checkBootedRun_error :
    ∀ (pre : List Attempt) (a : Attempt) (rest : List Attempt)
      (e : String) (c : Nat),
      (∀ b ∈ pre, quietAttempt b) → c + pre.length ≤ 18 →
      strContains a.stdout "stopped" = false → a.error = some e →
      checkBootedRun c (pre ++ a :: rest) =
        some (.rejected e, c + pre.length + 1)
  | [], a, rest, e, c, _, hlen, hstop, herr => by
      simp at hlen
      have hlt : ¬ (c + 1 ≥ 20) := by omega
      simp [checkBootedRun, pollStep, hstop, hlt, herr]
  | b :: pre, a, rest, e, c, hq, hlen, hstop, herr => by
      obtain ⟨hbs, hbe⟩ := hq b (List.mem_cons_self b pre)
      have hlt : c + 1 < 20 := by simp at hlen; omega
      have hnone := pollStep_eq_none hbs hlt hbe
      rw [List.cons_append, checkBootedRun, hnone]
      have := checkBootedRun_error pre a rest e (c + 1)
        (fun x hx => hq x (List.mem_cons_of_mem b hx))
        (by simp at hlen ⊢; omega) hstop herr
      rw [this]
      simp
      omega

/-! Model of `Device_Helper.getCert` and `Device_Helper.getProfile`.

The external `ioslib` library is modelled as a table mapping a type key to
the list of records of that type (the object `getCerts()` /
`getProvisioningProfiles()` resolves to).  Each result is paired with a
`Bool` recording whether the library call (`getCerts` /
`getProvisioningProfiles`) was made.  A JS `undefined` result is
`Except.ok none`; a found record is `Except.ok (some r)`. -/

/-- An opaque certificate / provisioning-profile record; only `name` is
inspected by the lookup. -/
structure IosRecord where
  name : String
  payload : String
  deriving Repr, DecidableEq

/-- Mirrors the `valid` array of `getCert`. -/
def certValidTypes : List String := ["developer", "distribution"]

/-- Mirrors the `valid` array of `getProfile`. -/
def profileValidTypes : List String := ["adhoc", "development", "distribution"]

/-- Models `Device_Helper.getCert` over type and search, with the host platform and the
`ioslib.certs.getCerts()` table as explicit inputs. -/
def getCert (platform : String) (table : String → List IosRecord)
    (ty search : String) : Except String (Option IosRecord) × Bool :=
  if platform ≠ "darwin" then
    (.ok none, false)
  else
    let subCerts := table ty
    if certValidTypes.contains ty = false then
      (.error ("Argument \x27" ++ ty ++ "\x27 is not a valid type of certificate"),
        true)
    else
      let foundCert := subCerts.foldl
        (fun acc c => if strContains c.name search then some c else acc) none
      match foundCert with
      | none =>
          (.error ("No certificate found with a name including \x27" ++ search ++ "\x27"),
            true)
      | some c => (.ok (some c), true)

/-- Models `Device_Helper.getProfile` over type and search, with the host platform and
the `ioslib.provisioning.getProvisioningProfiles()` table as explicit
inputs. -/
def getProfile (platform : String) (table : String → List IosRecord)
    (ty search : String) : Except String (Option IosRecord) × Bool :=
  if platform ≠ "darwin" then
    (.ok none, false)
  else
    let subProfiles := table ty
    if profileValidTypes.contains ty = false then
      (.error ("Argument \x27" ++ ty ++ "\x27 is not a valid type of provisioning profile"),
        true)
    else
      let foundProfile := subProfiles.foldl
        (fun acc c => if c.name == search then some c else acc) none
      match foundProfile with
      | none =>
          (.error ("No provisioning profile found with a name matching \x27" ++ search ++ "\x27"),
            true)
      | some c => (.ok (some c), true)

/-- Spec-side description of the scan: the last record in list order
satisfying the predicate. -/
def lastMatch (p : IosRecord → Bool) (l : List IosRecord) : Option IosRecord :=
  l.reverse.find? p

lemma find?_append_eq {α : Type} (l₁ l₂ : List α) (p : α → Bool) :
    (l₁ ++ l₂).find? p =
      match l₁.find? p with
      | some c => some c
      | none => l₂.find? p := by
  induction l₁ with
  | nil => simp
  | cons a l ih =>
      by_cases h : p a
      · simp [List.find?_cons_of_pos _ h]
      · simp [List.find?_cons_of_neg _ h, ih]

lemma foldl_lastMatch (p : IosRecord → Bool) :
    ∀ (l : List IosRecord) (init : Option IosRecord),
      l.foldl (fun acc c => if p c then some c else acc) init =
        match lastMatch p l with
        | some c => some c
        | none => init
  | [], init => by simp [lastMatch]
  | a :: l, init => by
      rw [List.foldl_cons, foldl_lastMatch p l]
      simp only [lastMatch, List.reverse_cons, find?_append_eq]
      cases hl : l.reverse.find? p with
      | some c => simp
      | none =>
          by_cases h : p a
          · simp [List.find?, h]
          · simp [List.find?, h]

/-! Model of `Appium_Helper.runAppium`.

The claim concerns only the hostname gate: a hostname in the fixed
`validAddresses` list reaches the `spawn` call; any other hostname takes
the `else` branch, rejecting without any spawn.  The spawned process
log-line wait and stderr handling are outside the gate and abstracted. -/

/-- Outcome of the hostname gate of `runAppium`: whether the Appium server
child process was spawned, and the synchronous rejection if any. -/
structure RunAppiumOutcome where
  spawned : Bool
  rejection : Option String
  deriving Repr, DecidableEq

/-- Mirrors the `validAddresses` array of `runAppium`. -/
def validAddresses : List String := ["localhost", "0.0.0.0", "127.0.0.1"]

/-- Models `Appium_Helper.runAppium`, restricted to the hostname gate. -/
def runAppium (hostname : String) : RunAppiumOutcome :=
  if validAddresses.contains hostname then
    { spawned := true, rejection := none }
  else
    { spawned := false,
      rejection :=
        some "Connecting to an External Appium Server is Not Currently Supported" }

/-! Model of `Appium_Helper.stopClient`.

The shared `global.driver` reference is the only state read; when it is
set, the teardown closes the app, removes it for Android/iOS platforms,
quits the session and deletes the global reference.  The remote driver
calls are modelled as an emitted action list. -/

/-- The session state behind `global.driver`: the platform name and the
two app identifiers `sessionCapabilities()` can report. -/
structure DriverSession where
  platformName : String
  cfBundleIdentifier : String
  appPackage : String
  deriving Repr, DecidableEq

/-- A remote driver call made during teardown. -/
inductive DriverAction where
  | closeApp : DriverAction
  | removeApp : String → DriverAction
  | quit : DriverAction
  deriving Repr, DecidableEq

/-- The process-wide shared state (`global.driver`). -/
structure World where
  driver : Option DriverSession
  deriving Repr, DecidableEq

/-- Models `Appium_Helper.stopClient`: returns the new shared state and the
driver calls performed. -/
def stopClient (w : World) : World × List DriverAction :=
  match w.driver with
  | none => (w, [])
  | some d =>
    let removeActs :=
      if d.platformName == "Android" || d.platformName == "iOS" then
        [DriverAction.removeApp
          (if d.platformName == "iOS" then d.cfBundleIdentifier else d.appPackage)]
      else []
    (⟨none⟩, DriverAction.closeApp :: removeActs ++ [DriverAction.quit])

/-! Model of `Appium_Helper.quitServ`, `getAppium`,
`Device_Helper.killEmu` and `getAndroidPID`.

The OS process table is an explicit list of `pid` / command-line pairs.
A successful kill returns the shell kill command issued; an error result
carries the thrown message and issues no kill. -/

/-- One entry of the `ps-list` process table. -/
structure ProcInfo where
  pid : Nat
  cmd : String
  deriving Repr, DecidableEq

/-- Models `path.join` of `node_modules`, `.bin`, `appium` with the host path
separator explicit. -/
def appiumBinPath (sep : String) : String :=
  "node_modules" ++ sep ++ ".bin" ++ sep ++ "appium"

/-- Models `getAppium`: first process whose command line contains the Appium
binary path. -/
def getAppium (sep : String) (list : List ProcInfo) : Option ProcInfo :=
  list.find? (fun x => strContains x.cmd (appiumBinPath sep))

/-- The platform-appropriate kill command issued by `quitServ` and
`killEmu`. -/
def killCommand (platform : String) (pid : Nat) : String :=
  if platform == "win32" then "taskkill /F /PID " ++ toString pid
  else "kill -9 " ++ toString pid

/-- Models `Appium_Helper.quitServ`. -/
def quitServ (platform sep : String) (list : List ProcInfo) :
    Except String (List String) :=
  match getAppium sep list with
  | none => .error "PID for Appium not found!"
  | some p => .ok [killCommand platform p.pid]

/-- Models `getAndroidPID`: the `find` returning no process makes
`proc.pid` throw, caught and rethrown as the descriptive error. -/
def getAndroidPID (deviceName : String) (list : List ProcInfo) :
    Except String Nat :=
  match list.find? (fun x => strContains x.cmd deviceName) with
  | none => .error ("Cannot find an Android PID for " ++ deviceName)
  | some p => .ok p.pid

/-- Models `Device_Helper.killEmu`. -/
def killEmu (platform deviceName : String) (list : List ProcInfo) :
    Except String (List String) :=
  match getAndroidPID deviceName list with
  | .error e => .error e
  | .ok pid => .ok [killCommand platform pid]

/-! Model of `Appium_Helper.startClient`.

The capabilities mutation (the `switch` plus `newCommandTimeout`) and the
host/port recovery from the command line of the located Appium process. -/

/-- The caller-supplied capabilities object: the fields `startClient`
touches, plus all remaining caller fields kept opaque in `others`. -/
structure Capabilities where
  platformName : String
  automationName : Option String
  deviceReadyTimeout : Option Nat
  newCommandTimeout : Option Nat
  others : List (String × String)
  deriving Repr, DecidableEq

/-- The capabilities mutation performed by `startClient`: the platform
`switch` followed by the unconditional `newCommandTimeout` assignment. -/
def setCapabilities (c : Capabilities) : Capabilities :=
  let c1 :=
    match c.platformName with
    | "iOS" => { c with automationName := some "XCUITest" }
    | "Android" =>
        { c with deviceReadyTimeout := some 60, automationName := some "Appium" }
    | _ => c
  { c1 with newCommandTimeout := some (60 * 10) }

/-- Models the JS split on a single separator character, over a
character list: consecutive separators yield empty fields and the empty
string yields one empty field. -/
def splitOnChar (sep : Char) : List Char → List (List Char)
  | [] => [[]]
  | c :: rest =>
    match splitOnChar sep rest with
    | [] => [[]]
    | h :: t => if c == sep then [] :: h :: t else (c :: h) :: t

/-- Models `cmd.split` at a single-space separator. -/
def splitSpaces (s : String) : List String :=
  (splitOnChar ' ' s.data).map fun l => ⟨l⟩

/-- Reads the argument after `flag` on the split command line: JS
`indexOf` yields `-1` when the flag is absent, so the lookup falls back to
`args[0]`; one past the end is `undefined` (`none`). -/
def parseArg (args : List String) (flag : String) : Option String :=
  match args.findIdx? (fun s => s == flag) with
  | some i => args.get? (i + 1)
  | none => args.get? 0

/-- Observable outcome of one `startClient` run, given the located Appium
command line of the located process: every `reject` call in order, and whether the
shared driver assignment and the session `init` were reached. -/
structure StartClientRun where
  rejections : List String
  driverAssigned : Bool
  initAttempted : Bool
  deriving Repr, DecidableEq

/-- Models `Appium_Helper.startClient` after the capabilities mutation: parses
host and port from the command line; a missing value calls `reject` but —
with no `return` — execution continues into the driver assignment and
`driver.init`, whose callback settles the promise. -/
def startClient (cmd : String) (initErr : Option String) : StartClientRun :=
  let args := splitSpaces cmd
  let host := parseArg args "-a"
  let port := parseArg args "-p"
  let rejections :=
    if host.isNone || port.isNone then
      ["Cannot locate Appium server details"]
    else []
  let rejections :=
    rejections ++ (match initErr with | some e => [e] | none => [])
  { rejections := rejections, driverAssigned := true, initAttempted := true }

/-- C1: the boot-poll resolves as soon as the stdout of a boot-animation query
contains `"stopped"`; if stdout never contains `"stopped"` and no command
error occurs it rejects with the timeout message after exactly 20 polls;
and no run ever settles after more than 20 polls. -/
theorem checkBooted_poll_spec (attempts : List Attempt) :
    ((∀ a ∈ attempts, quietAttempt a) → 20 ≤ attempts.length →
      checkBooted attempts = some (.rejected timeoutMsg, 20))
    ∧ (∀ (pre : List Attempt) (a : Attempt) (rest : List Attempt),
        attempts = pre ++ a :: rest → pre.length ≤ 19 →
        (∀ b ∈ pre, quietAttempt b) →
        strContains a.stdout "stopped" = true →
        checkBooted attempts = some (.resolved, pre.length + 1))
    ∧ (∀ r n, checkBooted attempts = some (r, n) → n ≤ 20) := by
  refine ⟨?_, ?_, ?_⟩
  · intro hq hlen
    exact checkBootedRun_timeout attempts 0 hq (by omega) (by omega)
  · intro pre a rest heq hlen hq hstop
    rw [heq, checkBooted]
    have := checkBootedRun_stopped pre a rest 0 hq (by omega) hstop
    simpa using this
  · intro r n h
    exact checkBootedRun_le attempts 0 r n (by omega) h

/-- Witness for C1 at a concrete run: 20 quiet polls reject with the
timeout message after exactly 20 polls. -/
theorem checkBooted_poll_spec_witness :
    checkBooted (List.replicate 20 ⟨"", "", none⟩) =
      some (.rejected timeoutMsg, 20) :=
  (checkBooted_poll_spec _).1
    (by
      intro a ha
      rw [List.eq_of_mem_replicate ha]
      exact ⟨by decide, rfl⟩)
    (by simp)

/-- C2 (amended): a command error on attempt `n` for `n` from 1 to 19,
when the stdout of that attempt does not contain `"stopped"`, causes immediate
rejection with that error after exactly `n` polls.  (On attempt 20 the
timeout rejection takes precedence, and stdout containing `"stopped"`
takes precedence over the error.) -/
theorem checkBooted_error_aborts (pre : List Attempt) (a : Attempt)
    (rest : List Attempt) (e : String)
    (hq : ∀ b ∈ pre, quietAttempt b) (hlen : pre.length ≤ 18)
    (hstop : strContains a.stdout "stopped" = false)
    (herr : a.error = some e) :
    checkBooted (pre ++ a :: rest) = some (.rejected e, pre.length + 1) := by
  have := checkBootedRun_error pre a rest e 0 hq (by omega) hstop herr
  simpa [checkBooted] using this

/-- Witness for the amended C2: an error on the first poll rejects with
that error after one poll. -/
theorem checkBooted_error_aborts_witness :
    checkBooted ([] ++ (⟨"", "", some "boom"⟩ : Attempt) :: []) =
      some (.rejected "boom", 1) :=
  checkBooted_error_aborts [] ⟨"", "", some "boom"⟩ [] "boom"
    (by intro b hb; cases hb) (by decide) (by decide) rfl

/-- Counterexample to C2 as stated: with 19 quiet polls followed by a
command error on attempt 20, `checkBooted` rejects with the timeout
message, not with the error. -/
theorem checkBooted_error_attempt20_counterexample :
    checkBooted
        (List.replicate 19 ⟨"", "", none⟩ ++ [⟨"", "", some "boom"⟩]) =
      some (.rejected timeoutMsg, 20) ∧ timeoutMsg ≠ "boom" := by
  constructor
  · rfl
  · decide

/-- C3 (amended): on darwin, for a type outside the allowed set the
lookup raises the "is not a valid type" error, but only after having
invoked the external library (`getCerts` / `getProvisioningProfiles`) —
the library call happens before the validity check. -/
theorem invalid_type_error_after_library_call
    (table ptable : String → List IosRecord)
    (tyC tyP searchC searchP : String)
    (hC : certValidTypes.contains tyC = false)
    (hP : profileValidTypes.contains tyP = false) :
    getCert "darwin" table tyC searchC =
      (.error ("Argument \x27" ++ tyC ++ "\x27 is not a valid type of certificate"),
        true)
    ∧ getProfile "darwin" ptable tyP searchP =
      (.error ("Argument \x27" ++ tyP ++ "\x27 is not a valid type of provisioning profile"),
        true) := by
  have hC' : tyC ∉ certValidTypes := by simpa using hC
  have hP' : tyP ∉ profileValidTypes := by simpa using hP
  constructor
  · simp [getCert, hC]
    intro hmem
    exact absurd hmem hC'
  · simp [getProfile, hP]
    intro hmem
    exact absurd hmem hP'

/-- Witness for the amended C3 at the concrete invalid type `"bogus"`. -/
theorem invalid_type_error_after_library_call_witness :
    getCert "darwin" (fun _ => []) "bogus" "x" =
      (.error "Argument \x27bogus\x27 is not a valid type of certificate", true)
    ∧ getProfile "darwin" (fun _ => []) "bogus" "x" =
      (.error "Argument \x27bogus\x27 is not a valid type of provisioning profile",
        true) :=
  invalid_type_error_after_library_call
    (fun _ => []) (fun _ => []) "bogus" "bogus" "x" "x" (by decide) (by decide)

/-- Counterexample to C3 as stated: on darwin with the invalid type
`"bogus"`, the "is not a valid type" error is raised but the external
library HAS been invoked (the call-tracking flag is `true`), contradicting
"before ever calling the external ioslib library". -/
theorem invalid_type_library_called_counterexample :
    (getCert "darwin" (fun _ => []) "bogus" "x").2 = true
    ∧ (getCert "darwin" (fun _ => []) "bogus" "x").1 =
        .error "Argument \x27bogus\x27 is not a valid type of certificate"
    ∧ (getProfile "darwin" (fun _ => []) "bogus" "x").2 = true := by
  refine ⟨rfl, rfl, rfl⟩

/-- C5: for a valid type, `getCert` returns the last record in list order
whose name contains the search string and `getProfile` the last record
whose name equals the search string; with no match each raises its
"No certificate found…" / "No provisioning profile found…" error. -/
theorem lookup_keeps_last_match (table ptable : String → List IosRecord)
    (tyC tyP searchC searchP : String)
    (hC : certValidTypes.contains tyC = true)
    (hP : profileValidTypes.contains tyP = true) :
    (getCert "darwin" table tyC searchC).1 =
      (match lastMatch (fun c => strContains c.name searchC) (table tyC) with
       | some c => .ok (some c)
       | none =>
          .error ("No certificate found with a name including \x27" ++ searchC ++ "\x27"))
    ∧ (getProfile "darwin" ptable tyP searchP).1 =
      (match lastMatch (fun c => c.name == searchP) (ptable tyP) with
       | some c => .ok (some c)
       | none =>
          .error ("No provisioning profile found with a name matching \x27" ++ searchP ++ "\x27")) := by
  constructor
  · rw [getCert]
    simp only [ne_eq, reduceIte, hC]
    rw [foldl_lastMatch]
    cases lastMatch (fun c => strContains c.name searchC) (table tyC) <;> simp
  · rw [getProfile]
    simp only [ne_eq, reduceIte, hP]
    rw [foldl_lastMatch]
    cases lastMatch (fun c => c.name == searchP) (ptable tyP) <;> simp

/-- Witness for C5: with two matching certificate records the later one is
returned; with two profiles of the searched name the later one is
returned. -/
theorem lookup_keeps_last_match_witness :
    (getCert "darwin"
        (fun _ => [⟨"Dev A", "c1"⟩, ⟨"Dev B", "c2"⟩]) "developer" "Dev").1 =
      .ok (some ⟨"Dev B", "c2"⟩)
    ∧ (getProfile "darwin"
        (fun _ => [⟨"Prof", "p1"⟩, ⟨"Prof", "p2"⟩]) "development" "Prof").1 =
      .ok (some ⟨"Prof", "p2"⟩) := by
  have h := lookup_keeps_last_match
    (fun _ => [⟨"Dev A", "c1"⟩, ⟨"Dev B", "c2"⟩])
    (fun _ => [⟨"Prof", "p1"⟩, ⟨"Prof", "p2"⟩])
    "developer" "development" "Dev" "Prof" (by decide) (by decide)
  refine ⟨?_, ?_⟩
  · rw [h.1]; rfl
  · rw [h.2]; rfl

/-- C6: on every host platform other than darwin, both lookups return the
JS `undefined` (here `Except.ok none`) for all arguments, raising no error
and never invoking the external library. -/
theorem non_darwin_returns_undefined (platform : String)
    (h : platform ≠ "darwin") (table ptable : String → List IosRecord)
    (ty search : String) :
    getCert platform table ty search = (.ok none, false)
    ∧ getProfile platform ptable ty search = (.ok none, false) := by
  constructor
  · simp [getCert, h]
  · simp [getProfile, h]

/-- Witness for C6 on the concrete platform `"linux"`. -/
theorem non_darwin_returns_undefined_witness :
    getCert "linux" (fun _ => []) "developer" "x" = (.ok none, false)
    ∧ getProfile "linux" (fun _ => []) "development" "x" = (.ok none, false) :=
  non_darwin_returns_undefined "linux" (by decide) (fun _ => []) (fun _ => [])
    "developer" "x"

/-- C4: a hostname among `localhost`, `0.0.0.0`, `127.0.0.1` proceeds to
spawn the Appium server process; any other hostname rejects with the
"External Appium Server" message without spawning. -/
theorem runAppium_hostname_gate (hostname : String) :
    (hostname ∈ validAddresses →
      runAppium hostname = { spawned := true, rejection := none })
    ∧ (hostname ∉ validAddresses →
      runAppium hostname =
        { spawned := false,
          rejection :=
            some "Connecting to an External Appium Server is Not Currently Supported" }) := by
  constructor
  · intro h
    simp [runAppium, h]
  · intro h
    simp [runAppium, h]

/-- Witness for C4 at the concrete hostnames `"0.0.0.0"` (valid) and
`"example.com"` (invalid). -/
theorem runAppium_hostname_gate_witness :
    runAppium "0.0.0.0" = { spawned := true, rejection := none }
    ∧ runAppium "example.com" =
      { spawned := false,
        rejection :=
          some "Connecting to an External Appium Server is Not Currently Supported" } :=
  ⟨(runAppium_hostname_gate "0.0.0.0").1 (by decide),
   (runAppium_hostname_gate "example.com").2 (by decide)⟩

/-- C7: with no active driver session, `stopClient` is a no-op — no
driver call is performed and the shared state is unchanged (and, the
`if` guarding every driver access, nothing can throw). -/
theorem stopClient_no_session_noop (w : World) (h : w.driver = none) :
    stopClient w = (w, []) := by
  simp [stopClient, h]

/-- Witness for C7 at the concrete empty shared state. -/
theorem stopClient_no_session_noop_witness :
    stopClient ⟨none⟩ = (⟨none⟩, []) :=
  stopClient_no_session_noop ⟨none⟩ rfl

/-- C8: when no command line in the process list contains the Appium binary path,
`quitServ` fails with "PID for Appium not found!", and when none contains
the device name, `killEmu` fails with "Cannot find an Android PID for
<deviceName>"; an error result issues no kill command. -/
theorem pid_not_found_errors (platform sep deviceName : String)
    (list : List ProcInfo)
    (hA : ∀ p ∈ list, strContains p.cmd (appiumBinPath sep) = false)
    (hD : ∀ p ∈ list, strContains p.cmd deviceName = false) :
    quitServ platform sep list = .error "PID for Appium not found!"
    ∧ killEmu platform deviceName list =
      .error ("Cannot find an Android PID for " ++ deviceName) := by
  have h1 : getAppium sep list = none := by
    rw [getAppium, List.find?_eq_none]
    intro p hp
    simp [hA p hp]
  have h2 : (list.find? fun x => strContains x.cmd deviceName) = none := by
    rw [List.find?_eq_none]
    intro p hp
    simp [hD p hp]
  constructor
  · rw [quitServ, h1]
  · rw [killEmu, getAndroidPID, h2]

/-- Witness for C8 on a concrete process table holding only a shell
process. -/
theorem pid_not_found_errors_witness :
    quitServ "darwin" "/" [⟨42, "bash"⟩] = .error "PID for Appium not found!"
    ∧ killEmu "darwin" "Pixel_4" [⟨42, "bash"⟩] =
      .error ("Cannot find an Android PID for " ++ "Pixel_4") :=
  pid_not_found_errors "darwin" "/" "Pixel_4" [⟨42, "bash"⟩]
    (by intro p hp; simp at hp; subst hp; decide)
    (by intro p hp; simp at hp; subst hp; decide)

/-- C9: `startClient` only injects the platform-specific fields and the
idle timeout: iOS gets `automationName = "XCUITest"`; Android gets
`automationName = "Appium"` and `deviceReadyTimeout = 60`; every run gets
`newCommandTimeout = 600`; all other caller-supplied fields are
unchanged. -/
theorem startClient_capabilities (c : Capabilities) :
    (setCapabilities c).newCommandTimeout = some 600
    ∧ (setCapabilities c).platformName = c.platformName
    ∧ (setCapabilities c).others = c.others
    ∧ (c.platformName = "iOS" →
        (setCapabilities c).automationName = some "XCUITest"
        ∧ (setCapabilities c).deviceReadyTimeout = c.deviceReadyTimeout)
    ∧ (c.platformName = "Android" →
        (setCapabilities c).automationName = some "Appium"
        ∧ (setCapabilities c).deviceReadyTimeout = some 60)
    ∧ (c.platformName ≠ "iOS" → c.platformName ≠ "Android" →
        (setCapabilities c).automationName = c.automationName
        ∧ (setCapabilities c).deviceReadyTimeout = c.deviceReadyTimeout) := by
  obtain ⟨pn, an, drt, nct, o⟩ := c
  by_cases h1 : pn = "iOS"
  · subst h1
    simp [setCapabilities]
  · by_cases h2 : pn = "Android"
    · subst h2
      simp [setCapabilities]
    · refine ⟨?_, ?_, ?_, ?_, ?_, ?_⟩ <;>
        simp_all [setCapabilities]

/-- Witness for C9 at a concrete iOS capabilities object. -/
theorem startClient_capabilities_witness :
    (setCapabilities ⟨"iOS", none, none, none, [("app", "a.ipa")]⟩).automationName =
      some "XCUITest"
    ∧ (setCapabilities ⟨"iOS", none, none, none, [("app", "a.ipa")]⟩).newCommandTimeout =
      some 600
    ∧ (setCapabilities ⟨"iOS", none, none, none, [("app", "a.ipa")]⟩).others =
      [("app", "a.ipa")] :=
  ⟨((startClient_capabilities ⟨"iOS", none, none, none, [("app", "a.ipa")]⟩).2.2.2.1 rfl).1,
   (startClient_capabilities ⟨"iOS", none, none, none, [("app", "a.ipa")]⟩).1,
   (startClient_capabilities ⟨"iOS", none, none, none, [("app", "a.ipa")]⟩).2.2.1⟩

/-- C10: when the command line of the located Appium process yields an
undefined host or port, the promise is rejected first with "Cannot locate
Appium server details", yet — the `reject` not being followed by a
`return` — the shared driver assignment and the session `init` still
happen. -/
theorem startClient_rejects_but_continues (cmd : String)
    (initErr : Option String)
    (h : parseArg (splitSpaces cmd) "-a" = none
      ∨ parseArg (splitSpaces cmd) "-p" = none) :
    (startClient cmd initErr).rejections.head? =
      some "Cannot locate Appium server details"
    ∧ (startClient cmd initErr).driverAssigned = true
    ∧ (startClient cmd initErr).initAttempted = true := by
  have hcond :
      ((parseArg (splitSpaces cmd) "-a").isNone
        || (parseArg (splitSpaces cmd) "-p").isNone) = true := by
    rcases h with h | h <;> simp [h]
  refine ⟨?_, rfl, rfl⟩
  simp [startClient, hcond]

/-- Witness for C10: a command line ending in `-a` has no host value;
the run rejects first with the locate message yet still assigns the
driver and attempts `init`. -/
theorem startClient_rejects_but_continues_witness :
    (startClient "node appium -a" none).rejections.head? =
      some "Cannot locate Appium server details"
    ∧ (startClient "node appium -a" none).driverAssigned = true
    ∧ (startClient "node appium -a" none).initAttempted = true :=
  startClient_rejects_but_continues "node appium -a" none (Or.inl (by decide))

end TiAppium
